import Mathlib

/-!
Verification of the Grumble sync-service pipeline
(`deploy/sync-service`: `main.py` and `services/{twitter,github,discourse,
sentiment,grouping,firestore}.py`).

The Python sources are shallowly embedded as executable Lean definitions:
dict-based records become structures with `Option` fields where the code
uses `dict.get`, exceptions become `Except`, the Firestore store becomes an
explicit state record plus a trace of write actions, and each remote
collaborator (source APIs, the language model) becomes an explicit oracle
argument supplying the outcome of every outbound call attempt.
-/

deriving instance DecidableEq for Except

namespace Grumble

/-! ## MD5 (`hashlib.md5`), needed by `GroupingService._generate_group_id`

`grouping.py` derives group ids as `"group-" + md5(theme.encode()).hexdigest()[:12]`.
We embed MD5 over byte lists (bytes as `Nat < 256`, words as `Nat < 2^32`).
-/

/-- 32-bit truncation. -/
def m32 (n : Nat) : Nat := n % 4294967296

/-- Bitwise complement on 32-bit words. -/
def not32 (n : Nat) : Nat := 4294967295 - m32 n

/-- Left-rotation of a 32-bit word by `s` bits (`s ≤ 32`). -/
def rotl32 (x s : Nat) : Nat :=
  m32 (m32 x * 2 ^ s + m32 x / 2 ^ (32 - s))

/-- The MD5 sine-derived round constants `K[0..63]`. -/
def md5K : Array Nat := #[
  3614090360, 3905402710, 606105819, 3250441966, 4118548399, 1200080426,
  2821735955, 4249261313, 1770035416, 2336552879, 4294925233, 2304563134,
  1804603682, 4254626195, 2792965006, 1236535329, 4129170786, 3225465664,
  643717713, 3921069994, 3593408605, 38016083, 3634488961, 3889429448,
  568446438, 3275163606, 4107603335, 1163531501, 2850285829, 4243563512,
  1735328473, 2368359562, 4294588738, 2272392833, 1839030562, 4259657740,
  2763975236, 1272893353, 4139469664, 3200236656, 681279174, 3936430074,
  3572445317, 76029189, 3654602809, 3873151461, 530742520, 3299628645,
  4096336452, 1126891415, 2878612391, 4237533241, 1700485571, 2399980690,
  4293915773, 2240044497, 1873313359, 4264355552, 2734768916, 1309151649,
  4149444226, 3174756917, 718787259, 3951481745]

/-- The MD5 per-round shift amounts `s[0..63]`. -/
def md5S : Array Nat := #[
  7, 12, 17, 22, 7, 12, 17, 22, 7, 12, 17, 22, 7, 12, 17, 22,
  5, 9, 14, 20, 5, 9, 14, 20, 5, 9, 14, 20, 5, 9, 14, 20,
  4, 11, 16, 23, 4, 11, 16, 23, 4, 11, 16, 23, 4, 11, 16, 23,
  6, 10, 15, 21, 6, 10, 15, 21, 6, 10, 15, 21, 6, 10, 15, 21]

/-- Little-endian 32-bit word `i` of a 64-byte chunk. -/
def md5Word (chunk : List Nat) (i : Nat) : Nat :=
  chunk.getD (4 * i) 0 + 256 * chunk.getD (4 * i + 1) 0 +
    65536 * chunk.getD (4 * i + 2) 0 + 16777216 * chunk.getD (4 * i + 3) 0

/-- Nonlinear function and message index of MD5 round `i`. -/
def md5FG (b c d i : Nat) : Nat × Nat :=
  if i < 16 then ((b &&& c) ||| (not32 b &&& d), i)
  else if i < 32 then ((d &&& b) ||| (not32 d &&& c), (5 * i + 1) % 16)
  else if i < 48 then (b ^^^ c ^^^ d, (3 * i + 5) % 16)
  else (c ^^^ (b ||| not32 d), (7 * i) % 16)

/-- One MD5 round step on the running state `(a, b, c, d)`. -/
def md5Round (chunk : List Nat) (st : Nat × Nat × Nat × Nat) (i : Nat) :
    Nat × Nat × Nat × Nat :=
  let (a, b, c, d) := st
  let (f, g) := md5FG b c d i
  let x := m32 (a + f + md5K.getD i 0 + md5Word chunk g)
  (d, m32 (b + rotl32 x (md5S.getD i 0)), b, c)

/-- Process one 64-byte chunk, updating the four MD5 state words. -/
def md5Chunk (st : Nat × Nat × Nat × Nat) (chunk : List Nat) :
    Nat × Nat × Nat × Nat :=
  let (a0, b0, c0, d0) := st
  let (a, b, c, d) := (List.range 64).foldl (md5Round chunk) st
  (m32 (a0 + a), m32 (b0 + b), m32 (c0 + c), m32 (d0 + d))

/-- Split a list into chunks of `n` elements, fuel-based so that it reduces
in the kernel; `fuel ≥ l.length` makes the fuel irrelevant (see
`chunksOfF_fuel` and `chunksOf_cons`). Callers use `n = 64` and `n = 10`. -/
def chunksOfF (n : Nat) : Nat → List α → List (List α)
  | _, [] => []
  | 0, _ :: _ => []
  | fuel + 1, x :: xs => (x :: xs).take n :: chunksOfF n fuel (xs.drop (n - 1))

/-- Split a list into chunks of `n` elements (`n ≥ 1` at every use site). -/
def chunksOf (n : Nat) (l : List α) : List (List α) :=
  chunksOfF n l.length l

theorem chunksOfF_fuel (n : Nat) (fuel₁ fuel₂ : Nat) (l : List α)
    (h₁ : l.length ≤ fuel₁) (h₂ : l.length ≤ fuel₂) :
    chunksOfF n fuel₁ l = chunksOfF n fuel₂ l := by
  induction fuel₁ generalizing fuel₂ l with
  | zero =>
    cases l with
    | nil => cases fuel₂ <;> rfl
    | cons x xs => simp at h₁
  | succ f ih =>
    cases l with
    | nil => cases fuel₂ <;> rfl
    | cons x xs =>
      cases fuel₂ with
      | zero => simp at h₂
      | succ f₂ =>
        simp only [chunksOfF]
        congr 1
        apply ih
        · simp only [List.length_drop]
          simp only [List.length_cons] at h₁
          omega
        · simp only [List.length_drop]
          simp only [List.length_cons] at h₂
          omega

theorem chunksOf_nil (n : Nat) : chunksOf n ([] : List α) = [] := rfl

theorem chunksOf_cons (n : Nat) (x : α) (xs : List α) :
    chunksOf n (x :: xs) = (x :: xs).take n :: chunksOf n (xs.drop (n - 1)) := by
  simp only [chunksOf, List.length_cons, chunksOfF]
  congr 1
  apply chunksOfF_fuel
  · simp only [List.length_drop]
    omega
  · exact Nat.le_refl _

/-- Little-endian byte serialization of `n` into `w` bytes. -/
def leBytes : Nat → Nat → List Nat
  | 0, _ => []
  | w + 1, n => n % 256 :: leBytes w (n / 256)

/-- MD5 padding: `0x80`, zeros to 56 mod 64, then the 64-bit bit length. -/
def md5Pad (msg : List Nat) : List Nat :=
  let padlen := (119 - msg.length % 64) % 64
  msg ++ 128 :: List.replicate padlen 0 ++ leBytes 8 (8 * msg.length % 2 ^ 64)

/-- MD5 digest of a byte list, as the 16 digest bytes. -/
def md5Bytes (msg : List Nat) : List Nat :=
  let (a, b, c, d) :=
    (chunksOf 64 (md5Pad msg)).foldl md5Chunk
      (1732584193, 4023233417, 2562383102, 271733878)
  leBytes 4 a ++ leBytes 4 b ++ leBytes 4 c ++ leBytes 4 d

/-- Lower-case hex character for a nibble. -/
def hexChar (n : Nat) : Char :=
  if n < 10 then Char.ofNat (48 + n) else Char.ofNat (87 + n)

/-- Lower-case hex characters of a byte list (`hexdigest`). -/
def hexChars (bytes : List Nat) : List Char :=
  (bytes.map fun b => [hexChar (b / 16), hexChar (b % 16)]).flatten

/-- UTF-8 encoding of one code point (`str.encode`). -/
def utf8Char (c : Char) : List Nat :=
  let n := c.toNat
  if n < 128 then [n]
  else if n < 2048 then [192 + n / 64, 128 + n % 64]
  else if n < 65536 then [224 + n / 4096, 128 + n / 64 % 64, 128 + n % 64]
  else [240 + n / 262144, 128 + n / 4096 % 64, 128 + n / 64 % 64, 128 + n % 64]

/-- UTF-8 encoding of a string (`str.encode`). -/
def utf8Encode (s : String) : List Nat :=
  (s.data.map utf8Char).flatten

/-! ## `GroupingService._generate_group_id` (grouping.py:96-98) -/

/-- `return f"group-{hashlib.md5(theme.encode()).hexdigest()[:12]}"`.
Note: the theme is hashed exactly as given, with no lower-casing. -/
def generate_group_id (theme : String) : String :=
  "group-" ++ String.mk ((hexChars (md5Bytes (utf8Encode theme))).take 12)

/-! ## Data model

`FeedbackItem` and `Group` are Python dicts; fields read via `dict.get` are
`Option`-valued. `analyzed`/`itemIds`/`itemCount` are always written by the
code paths that create them, so they are plain fields. -/

/-- A normalized feedback item (the dicts built by the source fetchers and
mutated by `SentimentService`). -/
structure Item where
  id : Option String
  content : String
  sentiment : Option String
  category : Option String
  summary : Option String
  translations : Option (List (String × String))
  analyzed : Bool
deriving DecidableEq

/-- A parsed per-item object of the model's analysis JSON array
(`{"sentiment": ..., "category": ..., "summary": ...}`, fields optional). -/
structure AResult where
  sentiment : Option String
  category : Option String
  summary : Option String
deriving DecidableEq

/-- A parsed group object of the model's grouping JSON array; `theme` is
accessed as `g["theme"]` (required), the rest via `g.get`. -/
structure RawGroup where
  theme : String
  sentiment : Option String
  category : Option String
  itemIds : Option (List String)
deriving DecidableEq

/-- A group document (built by `GroupingService.create_groups` or read back
from the groups collection). -/
structure GroupDoc where
  id : Option String
  theme : Option String
  sentiment : Option String
  category : Option String
  itemIds : List String
  itemCount : Nat
deriving DecidableEq

/-! ## Retry loops

Both services run `for attempt in range(self.max_retries)` with the body
calling the model and parsing its reply.  The remote call plus parse of
attempt `i` is an oracle `call i : Except Unit α` (`.error` = any exception).
`retryFrom call dead attempt remaining` is the loop from absolute index
`attempt` with `remaining = max_retries - attempt` iterations left:
on failure with `attempt < max_retries - 1` it sleeps and continues, on the
last iteration it re-raises, and `dead` is the (unreachable) value returned
after the loop. -/

def retryFrom (call : Nat → Except Unit α) (dead : α) :
    Nat → Nat → Except Unit α
  | _, 0 => Except.ok dead
  | attempt, 1 => call attempt
  | attempt, remaining + 2 =>
    match call attempt with
    | Except.ok v => Except.ok v
    | Except.error _ => retryFrom call dead (attempt + 1) (remaining + 1)

/-! ## `SentimentService` (sentiment.py) -/

/-- `SentimentService._analyze_items` (sentiment.py:48-74): retry the model
call/parse up to `max_retries = 3` times; the parsed array is returned with
no length check.  The `return [{"sentiment": "neutral", ...} for _ in items]`
after the loop is dead code but embedded faithfully. -/
def analyze_items (items : List Item) (call : Nat → Except Unit (List AResult)) :
    Except Unit (List AResult) :=
  retryFrom call (items.map fun _ => ⟨some "neutral", some "other", none⟩) 0 3

/-- The per-item mutation on a zipped `(item, result)` pair
(sentiment.py:28-33). -/
def applyResult (it : Item) (r : AResult) : Item :=
  { it with
    sentiment := some (r.sentiment.getD "neutral")
    category := some (r.category.getD "other")
    summary := some (r.summary.getD "")
    analyzed := true }

/-- The whole-batch fallback on an exception (sentiment.py:40-44): sets
sentiment/category/analyzed but leaves `summary` untouched. -/
def applyFallback (it : Item) : Item :=
  { it with sentiment := some "neutral", category := some "other", analyzed := true }

/-- One batch of `SentimentService.analyze_batch`: on success the results
are matched to items by `zip(batch, results)` (which silently truncates to
the shorter list); on an exception every batch item falls back. -/
def analyzeOneBatch (call : Nat → Except Unit (List AResult)) (batch : List Item) :
    List Item :=
  match analyze_items batch call with
  | Except.ok rs => (batch.zip rs).map fun p => applyResult p.1 p.2
  | Except.error _ => batch.map applyFallback

/-- `SentimentService.analyze_batch` (sentiment.py:19-46): process items in
batches of `batch_size = 10`; `oracle i` is the attempt oracle of batch `i`. -/
def analyze_batch (items : List Item) (oracle : Nat → Nat → Except Unit (List AResult)) :
    List Item :=
  ((chunksOf 10 items).enum.map fun p => analyzeOneBatch (oracle p.1) p.2).flatten

/-- `SentimentService._translate_items` retry loop (sentiment.py:133-155):
unlike the analysis loop, exhaustion does NOT re-raise — the exception is
swallowed and the function returns with no mutation. -/
def translateLoop (call : Nat → Except Unit (List (List (String × String)))) :
    Nat → Nat → Option (List (List (String × String)))
  | _, 0 => none
  | attempt, remaining + 1 =>
    match call attempt with
    | Except.ok v => some v
    | Except.error _ => translateLoop call (attempt + 1) remaining

/-- `SentimentService._translate_items` (sentiment.py:116-155): on success,
`zip(items, translations)` mutates the first `min` items in place; the list
of items itself is unchanged in length and order. -/
def translate_items (items : List Item)
    (call : Nat → Except Unit (List (List (String × String)))) : List Item :=
  match translateLoop call 0 3 with
  | some ts => ((items.zip ts).map fun p => { p.1 with translations := some p.2 })
      ++ items.drop ts.length
  | none => items

/-- `SentimentService.translate_batch` (sentiment.py:103-114): batches of 10;
per-batch exceptions are caught and logged; returns the (mutated) input list. -/
def translate_batch (items : List Item)
    (oracle : Nat → Nat → Except Unit (List (List (String × String)))) : List Item :=
  ((chunksOf 10 items).enum.map fun p => translate_items p.2 (oracle p.1)).flatten

/-! ## `GroupingService` (grouping.py) -/

/-- Building a group record from a parsed model group (grouping.py:73-83). -/
def rawToGroup (g : RawGroup) : GroupDoc :=
  { id := some (generate_group_id g.theme)
    theme := some g.theme
    sentiment := some (g.sentiment.getD "neutral")
    category := some (g.category.getD "other")
    itemIds := g.itemIds.getD []
    itemCount := (g.itemIds.getD []).length }

/-- `GroupingService._group_items` (grouping.py:31-94): retry loop with
re-raise on exhaustion, dead `return []` after the loop; on success the
parsed groups get ids and item counts. -/
def group_items (call : Nat → Except Unit (List RawGroup)) :
    Except Unit (List GroupDoc) :=
  (retryFrom call [] 0 3).map fun gs => gs.map rawToGroup

/-- `GroupingService.create_groups` (grouping.py:19-29): empty input yields
`[]`; any exception from `_group_items` is caught and yields `[]`. -/
def create_groups (items : List Item) (call : Nat → Except Unit (List RawGroup)) :
    List GroupDoc :=
  if items.isEmpty then []
  else
    match group_items call with
    | Except.ok gs => gs
    | Except.error _ => []

/-- ASCII lower-casing of one character (`str.lower`; themes handled by the
settled claims are ASCII, where Python's Unicode lower-casing agrees). -/
def lowerChar (c : Char) : Char :=
  if 65 ≤ c.toNat && c.toNat ≤ 90 then Char.ofNat (c.toNat + 32) else c

/-- `str.lower()` on the ASCII range. -/
def strLower (s : String) : String := String.mk (s.data.map lowerChar)

/-- The lower-cased theme used for group dedup (`group.get("theme", "").lower()`). -/
def lowTheme (g : GroupDoc) : String := strLower (g.theme.getD "")

/-- The dedup loop of `GroupingService.deduplicate_groups`
(grouping.py:112-122): `seen` models the mutable `existing_themes` set; every
kept group's theme is added to it. -/
def dedupGo (seen : List String) : List GroupDoc → List GroupDoc
  | [] => []
  | g :: gs =>
    if lowTheme g ∈ seen then dedupGo seen gs
    else g :: dedupGo (lowTheme g :: seen) gs

/-- `GroupingService.deduplicate_groups` (grouping.py:100-124): early return
`[]` on empty `new_groups`, early return of `new_groups` UNCHANGED on empty
`existing_groups`, else the seen-set filter loop. -/
def deduplicate_groups (new_groups existing_groups : List GroupDoc) : List GroupDoc :=
  if new_groups.isEmpty then []
  else if existing_groups.isEmpty then new_groups
  else dedupGo (existing_groups.map lowTheme) new_groups

/-! ## `FirestoreService` (firestore.py) -/

/-- Python truthiness of the optional id string (`if item_id and ...`):
a missing key or empty string is falsy. -/
def truthyId : Option String → Bool
  | none => false
  | some s => !(s == "")

/-- `FirestoreService.merge_items` (firestore.py:69-80): keep, in order, the
items whose id is truthy and not a key of the existing-items dict. -/
def merge_items (existing : List String) : List Item → List Item
  | [] => []
  | it :: rest =>
    if truthyId it.id && !(existing.contains (it.id.getD "")) then
      it :: merge_items existing rest
    else merge_items existing rest

/-- The document ids written by `FirestoreService.save_items`
(firestore.py:82-105), in write order: items with a falsy id are skipped
(`if not item_id: continue`); batch commits do not change what is written. -/
def save_items_writes (items : List Item) : List String :=
  items.filterMap fun it => if truthyId it.id then some (it.id.getD "") else none

/-- The document ids written by `FirestoreService.save_groups`
(firestore.py:107-129). -/
def save_groups_writes (groups : List GroupDoc) : List String :=
  groups.filterMap fun g => if truthyId g.id then some (g.id.getD "") else none

/-! ## Lock management (main.py:20-41)

Timestamps are `Nat` seconds; `timedelta(minutes=30)` is 1800 seconds.
Records written by `acquire_lock` always carry `expires_at`, so the field is
modelled as required. -/

structure LockRec where
  acquiredAt : Nat
  expiresAt : Nat
deriving DecidableEq

/-- The 30-minute lock TTL, in seconds. -/
def lockTTL : Nat := 1800

/-- `acquire_lock` (main.py:20-35): read the single lock record; if it exists
with `expires_at > now`, return `False` without writing; otherwise write
`{acquired_at: now, expires_at: now + 30min}` and return `True`.  Returns the
flag and the lock record afterwards. -/
def acquire_lock (lock : Option LockRec) (now : Nat) : Bool × Option LockRec :=
  match lock with
  | some l =>
    if l.expiresAt > now then (false, some l)
    else (true, some ⟨now, now + lockTTL⟩)
  | none => (true, some ⟨now, now + lockTTL⟩)

/-! ## Orchestrator (`sync_all`, main.py:51-173)

The Firestore database is an explicit `FSState`; remote collaborators are
oracles.  Store reads/writes that the pipeline performs can each fail
(`StoreFaults`), modelling "store failure" faults; the run also produces a
trace of store write actions, used to state frame and release-discipline
properties.  `set(..., merge=True)` is modelled as writing the whole
document — no settled claim depends on field-level merge. -/

structure SourceCfg where
  enabled : Bool
deriving DecidableEq

structure SyncStateDoc where
  lastSyncAt : Option Nat
  status : Option String
deriving DecidableEq

structure FSState where
  lock : Option LockRec
  twitterCfg : Option SourceCfg
  githubCfg : Option SourceCfg
  discourseCfg : Option SourceCfg
  feedback : List (String × Item)
  groups : List (String × GroupDoc)
  syncState : Option SyncStateDoc
deriving DecidableEq

structure Env where
  twitterToken : Option String
  githubToken : Option String
  geminiKey : Option String
deriving DecidableEq

structure StoreFaults where
  configFail : Bool
  lastSyncFail : Bool
  existingItemsFail : Bool
  existingGroupsFail : Bool
  saveItemsFail : Bool
  saveGroupsFail : Bool
  updateTsFail : Bool
deriving DecidableEq

/-- Outcomes of the remote collaborators.  `github`/`discourse` are the items
the fetchers return: per `github.py:37-48` and `discourse.py:28-36` both
fetchers catch every per-entity exception internally and never raise, so
their outcome is always a plain list. -/
structure RemoteOracle where
  github : List Item
  discourse : List Item
  sentiment : Nat → Nat → Except Unit (List AResult)
  grouping : Nat → Except Unit (List RawGroup)
  translation : Nat → Nat → Except Unit (List (List (String × String)))

/-- Store writes performed inside the pipeline body. -/
inductive WAct
  | itemWrite (id : String)
  | groupWrite (id : String)
  | syncStateWrite
deriving DecidableEq

/-- All store writes of a run, lock operations included. -/
inductive Act
  | lockSet (acquiredAt expiresAt : Nat)
  | lockDelete
  | store (a : WAct)
deriving DecidableEq

/-- Exceptions the embedded pipeline body can raise. -/
inductive PyErr
  | typeError
  | storeErr
deriving DecidableEq

/-- JSON leaf values of the endpoint's response dicts. -/
inductive JVal
  | num (n : Nat)
  | str (s : String)
deriving DecidableEq

/-- A JSON response object, as an ordered key/value list. -/
abbrev Resp := List (String × JVal)

/-- `{"status": "skipped", "reason": "Another sync in progress"}` (main.py:69). -/
def skippedResp : Resp :=
  [("status", JVal.str "skipped"), ("reason", JVal.str "Another sync in progress")]

/-- `{"synced": 0, "groups": 0, "message": "No new items"}` (main.py:127). -/
def noNewResp : Resp :=
  [("synced", JVal.num 0), ("groups", JVal.num 0), ("message", JVal.str "No new items")]

/-- `{"synced": ..., "groups": ..., "total_fetched": ...}` (main.py:162-166). -/
def successResp (synced groups total_fetched : Nat) : Resp :=
  [("synced", JVal.num synced), ("groups", JVal.num groups),
   ("total_fetched", JVal.num total_fetched)]

/-- Upsert into a keyed document list. -/
def setDoc (docs : List (String × α)) (k : String) (v : α) : List (String × α) :=
  if docs.any fun p => p.1 == k then
    docs.map fun p => if p.1 == k then (k, v) else p
  else docs ++ [(k, v)]

/-- `FirestoreService.save_items` as a state/trace transformer over the
feedback collection. -/
def save_items_fs (docs : List (String × Item)) (items : List Item) :
    List (String × Item) × List WAct :=
  items.foldl
    (fun acc it =>
      if truthyId it.id then
        (setDoc acc.1 (it.id.getD "") it, acc.2 ++ [WAct.itemWrite (it.id.getD "")])
      else acc)
    (docs, [])

/-- `FirestoreService.save_groups` as a state/trace transformer over the
groups collection. -/
def save_groups_fs (docs : List (String × GroupDoc)) (groups : List GroupDoc) :
    List (String × GroupDoc) × List WAct :=
  groups.foldl
    (fun acc g =>
      if truthyId g.id then
        (setDoc acc.1 (g.id.getD "") g, acc.2 ++ [WAct.groupWrite (g.id.getD "")])
      else acc)
    (docs, [])

/-- `config.get(source, {}).get("enabled", False)`. -/
def cfgEnabled : Option SourceCfg → Bool
  | some c => c.enabled
  | none => false

/-- `FirestoreService.get_existing_groups` (firestore.py:59-67): each stored
group with its `id` overwritten by the document id. -/
def get_existing_groups (docs : List (String × GroupDoc)) : List GroupDoc :=
  docs.map fun p => { p.2 with id := some p.1 }

/-- True when main.py:92 is reached: twitter enabled in config and
`TWITTER_BEARER_TOKEN` set.  That line calls
`twitter.search(keywords, since=last_sync)`, but `TwitterService.search`
(twitter.py:18) has signature `search(self, keywords)` — the call raises
`TypeError: search() got an unexpected keyword argument 'since'`. -/
def twitterCrashes (fs : FSState) (env : Env) : Bool :=
  cfgEnabled fs.twitterCfg && env.twitterToken.isSome

/-- The items collected from the non-crashing fetchers (main.py:96-120):
github when enabled with a token, discourse when enabled (no credential). -/
def fetchedItems (fs : FSState) (env : Env) (R : RemoteOracle) : List Item :=
  (if cfgEnabled fs.githubCfg && env.githubToken.isSome then R.github else []) ++
    (if cfgEnabled fs.discourseCfg then R.discourse else [])

/-- The `try:` body of `sync_all` (main.py:71-166), with the lock already
held: result (or raised exception), database afterwards, and trace of store
writes. -/
def syncBody (fs : FSState) (now : Nat) (env : Env) (F : StoreFaults)
    (R : RemoteOracle) : Except PyErr Resp × FSState × List WAct :=
  if F.configFail then (Except.error PyErr.storeErr, fs, [])
  else if F.lastSyncFail then (Except.error PyErr.storeErr, fs, [])
  else if twitterCrashes fs env then (Except.error PyErr.typeError, fs, [])
  else if F.existingItemsFail then (Except.error PyErr.storeErr, fs, [])
  else
    let allItems := fetchedItems fs env R
    let newItems := merge_items (fs.feedback.map Prod.fst) allItems
    if newItems.isEmpty then (Except.ok noNewResp, fs, [])
    else
      let analyzed := analyze_batch newItems R.sentiment
      let groups := create_groups analyzed R.grouping
      if F.existingGroupsFail then (Except.error PyErr.storeErr, fs, [])
      else
        let uniqueGroups := deduplicate_groups groups (get_existing_groups fs.groups)
        let translated := translate_batch analyzed R.translation
        if F.saveItemsFail then (Except.error PyErr.storeErr, fs, [])
        else
          let s1 := save_items_fs fs.feedback translated
          let fs1 := { fs with feedback := s1.1 }
          if F.saveGroupsFail then (Except.error PyErr.storeErr, fs1, s1.2)
          else
            let s2 := save_groups_fs fs1.groups uniqueGroups
            let fs2 := { fs1 with groups := s2.1 }
            if F.updateTsFail then (Except.error PyErr.storeErr, fs2, s1.2 ++ s2.2)
            else
              (Except.ok (successResp translated.length uniqueGroups.length allItems.length),
               { fs2 with syncState := some ⟨some now, some "completed"⟩ },
               s1.2 ++ s2.2 ++ [WAct.syncStateWrite])

/-- The authorization-header check (main.py:59-62). -/
def authOk : Option String → Bool
  | some s => s.data.take 7 == "Bearer ".data
  | none => false

/-- The `/sync` endpoint `sync_all` (main.py:51-173): auth check, lock
acquisition, body, top-level `except` mapping any exception to HTTP 500, and
the `finally: release_lock` deleting the lock record on every path that
acquired it.  Result is `Except.error code` for an `HTTPException`. -/
def sync_all (fs : FSState) (now : Nat) (auth : Option String) (env : Env)
    (F : StoreFaults) (R : RemoteOracle) : Except Nat Resp × FSState × List Act :=
  if !(authOk auth) then (Except.error 401, fs, [])
  else
    let acq := acquire_lock fs.lock now
    if acq.1 then
      let body := syncBody { fs with lock := acq.2 } now env F R
      let fs2 := { body.2.1 with lock := none }
      let acts := Act.lockSet now (now + lockTTL) :: body.2.2.map Act.store
        ++ [Act.lockDelete]
      match body.1 with
      | Except.ok resp => (Except.ok resp, fs2, acts)
      | Except.error _ => (Except.error 500, fs2, acts)
    else (Except.ok skippedResp, fs, [])

/-! ## Spec-side definitions

These definitions follow the words of the spec/claims (not the source); they
exist to be compared against the embedded code. -/

/-- The dedup rule exactly as C8 states it: keep the members of `new_groups`
whose lower-cased theme equals no existing group's lower-cased theme. -/
def dedupClaimC8 (new_groups existing_groups : List GroupDoc) : List GroupDoc :=
  new_groups.filter fun g => !(existing_groups.any fun e => lowTheme e == lowTheme g)

/-- `filterNew` exactly as C7 states it: keep the candidates whose id is
absent from the existing-id set. -/
def filterNewClaimC7 (existing : List String) (cands : List Item) : List Item :=
  cands.filter fun it => !(existing.contains (it.id.getD ""))

/-- The amended C8 dedup rule: a new group is kept iff its lower-cased theme
differs from every existing group's lower-cased theme and from that of every
earlier kept new group. -/
def dedupAmendedC8 (seenThemes : List String) : List GroupDoc → List GroupDoc
  | [] => []
  | g :: gs =>
    if lowTheme g ∈ seenThemes then dedupAmendedC8 seenThemes gs
    else g :: dedupAmendedC8 (seenThemes ++ [lowTheme g]) gs

/-! ## Concrete fixtures for witnesses and counterexamples -/

/-- A well-formed fetched item. -/
def itemA : Item := ⟨some "github-issue-1", "crash on save", none, none, none, none, false⟩

/-- An item whose `id` key holds the empty string (falsy in Python). -/
def emptyIdItem : Item := ⟨some "", "anonymous grumble", none, none, none, none, false⟩

/-- New group with theme "b". -/
def grpB1 : GroupDoc := ⟨some "n1", some "b", none, none, [], 0⟩

/-- Second new group with the same theme "b". -/
def grpB2 : GroupDoc := ⟨some "n2", some "b", none, none, [], 0⟩

/-- Existing group with theme "a". -/
def grpA : GroupDoc := ⟨some "e1", some "a", none, none, [], 0⟩

/-- An empty database. -/
def fs0 : FSState := ⟨none, none, none, none, [], [], none⟩

/-- No credentials in the environment. -/
def env0 : Env := ⟨none, none, none⟩

/-- No store faults. -/
def faults0 : StoreFaults := ⟨false, false, false, false, false, false, false⟩

/-- `save_items` fails (store failure at the save phase). -/
def faultsSaveFail : StoreFaults := ⟨false, false, false, false, true, false, false⟩

/-- Nothing fetched, every model call fails. -/
def oracle0 : RemoteOracle :=
  ⟨[], [], fun _ _ => Except.error (), fun _ => Except.error (), fun _ _ => Except.error ()⟩

/-- GitHub returns one item, every model call fails. -/
def oracleG : RemoteOracle :=
  ⟨[itemA], [], fun _ _ => Except.error (), fun _ => Except.error (), fun _ _ => Except.error ()⟩

/-- Twitter and GitHub enabled in the stored config. -/
def fsTw : FSState := ⟨none, some ⟨true⟩, some ⟨true⟩, none, [], [], none⟩

/-- Only GitHub enabled; watermark present. -/
def fsG : FSState :=
  ⟨none, none, some ⟨true⟩, none, [], [], some ⟨some 5, some "completed"⟩⟩

/-- Credentials for twitter and github. -/
def envTw : Env := ⟨some "tw-token", some "gh-token", none⟩

/-- Credentials for github only. -/
def envG : Env := ⟨none, some "gh-token", none⟩

/-! ## Helper lemmas -/

theorem chunksOf_flatten (n : Nat) (hn : 1 ≤ n) (l : List α) :
    (chunksOf n l).flatten = l := by
  have H : ∀ (k : Nat) (l : List α), l.length ≤ k → (chunksOf n l).flatten = l := by
    intro k
    induction k with
    | zero =>
      intro l h
      cases l with
      | nil => rfl
      | cons x xs => simp at h
    | succ k ih =>
      intro l h
      cases l with
      | nil => rfl
      | cons x xs =>
        rw [chunksOf_cons]
        simp only [List.flatten_cons]
        rw [ih (xs.drop (n - 1)) (by simp only [List.length_drop]
                                     simp only [List.length_cons] at h
                                     omega)]
        cases n with
        | zero => omega
        | succ m =>
          simp only [List.take_succ_cons, Nat.add_sub_cancel, List.cons_append,
            List.cons.injEq, true_and]
          exact List.take_append_drop m xs
  exact H l.length l (Nat.le_refl _)

theorem merge_items_eq_filter (existing : List String) (cands : List Item) :
    merge_items existing cands =
      cands.filter fun it => truthyId it.id && !(existing.contains (it.id.getD "")) := by
  induction cands with
  | nil => rfl
  | cons it rest ih =>
    simp only [merge_items, List.filter_cons]
    by_cases h : (truthyId it.id && !(existing.contains (it.id.getD ""))) = true
    · rw [if_pos h, if_pos h, ih]
    · rw [if_neg h, if_neg h, ih]

theorem save_items_writes_of_mem {it : Item} {items : List Item} {s : String}
    (hmem : it ∈ items) (hid : it.id = some s) (hs : s ≠ "") :
    s ∈ save_items_writes items := by
  simp only [save_items_writes, List.mem_filterMap]
  refine ⟨it, hmem, ?_⟩
  simp [truthyId, hid, hs]

theorem dedupGo_congr (l : List GroupDoc) :
    ∀ s₁ s₂ : List String, (∀ x, x ∈ s₁ ↔ x ∈ s₂) →
      dedupGo s₁ l = dedupAmendedC8 s₂ l := by
  induction l with
  | nil => intro _ _ _; rfl
  | cons g gs ih =>
    intro s₁ s₂ hmem
    simp only [dedupGo, dedupAmendedC8]
    by_cases h : lowTheme g ∈ s₁
    · rw [if_pos h, if_pos ((hmem _).mp h), ih s₁ s₂ hmem]
    · rw [if_neg h, if_neg (fun hc => h ((hmem _).mpr hc))]
      refine congrArg _ (ih _ _ fun x => ?_)
      simp only [List.mem_cons, List.mem_append, List.mem_singleton, hmem x]
      tauto

theorem dedupGo_sublist (l : List GroupDoc) :
    ∀ s : List String, (dedupGo s l).Sublist l := by
  induction l with
  | nil => intro _; exact List.Sublist.refl _
  | cons g gs ih =>
    intro s
    simp only [dedupGo]
    by_cases h : lowTheme g ∈ s
    · rw [if_pos h]; exact (ih s).cons g
    · rw [if_neg h]; exact (ih _).cons₂ g

theorem save_items_fs_trace (items : List Item) (docs : List (String × Item)) :
    (save_items_fs docs items).2 = (save_items_writes items).map WAct.itemWrite := by
  have H : ∀ (items : List Item) (d : List (String × Item)) (a : List WAct),
      (items.foldl
        (fun acc it =>
          if truthyId it.id then
            (setDoc acc.1 (it.id.getD "") it, acc.2 ++ [WAct.itemWrite (it.id.getD "")])
          else acc)
        (d, a)).2 = a ++ (save_items_writes items).map WAct.itemWrite := by
    intro items
    induction items with
    | nil => intro d a; simp [save_items_writes]
    | cons it rest ih =>
      intro d a
      by_cases h : truthyId it.id = true
      · simp only [List.foldl_cons, h, if_pos, ih, save_items_writes, List.filterMap_cons, h,
          if_true]
        simp [save_items_writes, List.append_assoc]
      · simp only [Bool.not_eq_true] at h
        simp [List.foldl_cons, h, ih, save_items_writes]
  exact H items docs []

theorem save_groups_fs_trace (groups : List GroupDoc) (docs : List (String × GroupDoc)) :
    (save_groups_fs docs groups).2 = (save_groups_writes groups).map WAct.groupWrite := by
  have H : ∀ (groups : List GroupDoc) (d : List (String × GroupDoc)) (a : List WAct),
      (groups.foldl
        (fun acc g =>
          if truthyId g.id then
            (setDoc acc.1 (g.id.getD "") g, acc.2 ++ [WAct.groupWrite (g.id.getD "")])
          else acc)
        (d, a)).2 = a ++ (save_groups_writes groups).map WAct.groupWrite := by
    intro groups
    induction groups with
    | nil => intro d a; simp [save_groups_writes]
    | cons g rest ih =>
      intro d a
      by_cases h : truthyId g.id = true
      · simp only [List.foldl_cons, h, if_pos, ih, save_groups_writes, List.filterMap_cons, h,
          if_true]
        simp [save_groups_writes, List.append_assoc]
      · simp only [Bool.not_eq_true] at h
        simp [List.foldl_cons, h, ih, save_groups_writes]
  exact H groups docs []

/-! ## Claim C3 — group id derivation -/

set_option maxRecDepth 400000 in
/-- C3 counterexample: group id derivation is NOT case-insensitive.
`_generate_group_id` (grouping.py:96-98) hashes the theme exactly as given,
with no lower-casing, so `groupId("Bug Reports") ≠ groupId("bug reports")`,
contradicting the claimed equality. -/
theorem c3_counterexample :
    generate_group_id "Bug Reports" ≠ generate_group_id "bug reports" := by
  decide

set_option maxRecDepth 400000 in
/-- C3 (amended): group id derivation is a pure, deterministic function of
the exact theme text — repeated calls agree and the ids are stable string
constants across runs — but it is case-sensitive: themes differing only by
case yield distinct ids ("Bug Reports" hashes to `group-ebe2e27c8acc`,
"bug reports" to `group-57d1b1fca805`). -/
theorem c3_group_id_pure_case_sensitive :
    (∀ t : String, generate_group_id t = generate_group_id t) ∧
      generate_group_id "Bug Reports" = "group-ebe2e27c8acc" ∧
      generate_group_id "bug reports" = "group-57d1b1fca805" :=
  ⟨fun _ => rfl, by decide, by decide⟩

/-! ## Claim C8 — group deduplication -/

/-- C8 counterexample: whether a new group is kept does NOT depend only on
comparison against the existing groups.  With one existing group of theme
"a" and two new groups both of theme "b", the claim keeps both (neither
matches an existing theme) but the code drops the second, because kept new
themes are added to the seen set (grouping.py:121). -/
theorem c8_counterexample :
    deduplicate_groups [grpB1, grpB2] [grpA] ≠ dedupClaimC8 [grpB1, grpB2] [grpA] := by
  decide

/-- C8 (amended): when existingGroups is nonempty, deduplicate keeps, in
input order, the new groups whose lower-cased theme differs from every
existing group's lower-cased theme and from that of every earlier kept new
group; when existingGroups is empty, newGroups is returned unchanged (even
internal duplicates survive).  The output is always a sublist of newGroups —
no merging is performed. -/
theorem c8_dedup_characterization :
    ∀ new_groups existing_groups : List GroupDoc,
      deduplicate_groups new_groups existing_groups =
        (if existing_groups.isEmpty then new_groups
         else dedupAmendedC8 (existing_groups.map lowTheme) new_groups) ∧
      (deduplicate_groups new_groups existing_groups).Sublist new_groups := by
  intro newG exG
  constructor
  · cases newG with
    | nil => cases exG <;> rfl
    | cons g gs =>
      cases exG with
      | nil => rfl
      | cons e es => exact dedupGo_congr _ _ _ fun x => Iff.rfl
  · cases newG with
    | nil => cases exG <;> exact List.nil_sublist _
    | cons g gs =>
      cases exG with
      | nil => exact List.Sublist.refl _
      | cons e es => exact dedupGo_sublist _ _

/-! ## Claim C7 — filterNew / merge_items -/

/-- C7 counterexample: a candidate whose id is the empty string is absent
from the empty existing-id set, so the claim keeps it, but `merge_items`
drops it: the Python guard `if item_id and ...` (firestore.py:76) treats an
empty-string id as falsy. -/
theorem c7_counterexample :
    merge_items [] [emptyIdItem] ≠ filterNewClaimC7 [] [emptyIdItem] := by
  decide

/-- C7 (amended): merge_items returns exactly, in input order, the
candidates whose id is present, non-empty, AND absent from the existing-id
set; and re-running it after a save of its output has been incorporated into
the existing set yields the empty list (idempotence). -/
theorem c7_filterNew_characterization :
    ∀ (existing : List String) (cands : List Item),
      merge_items existing cands =
        cands.filter (fun it => truthyId it.id && !(existing.contains (it.id.getD ""))) ∧
      merge_items (existing ++ save_items_writes (merge_items existing cands)) cands = [] := by
  intro E cands
  refine ⟨merge_items_eq_filter E cands, ?_⟩
  rw [merge_items_eq_filter, List.filter_eq_nil_iff]
  intro it hit
  cases hid : it.id with
  | none => simp [truthyId, hid]
  | some s =>
    by_cases hs : s = ""
    · simp [truthyId, hid, hs]
    · have hmem : s ∈ E ++ save_items_writes (merge_items E cands) := by
        by_cases hE : s ∈ E
        · exact List.mem_append_left _ hE
        · refine List.mem_append_right _ ?_
          refine save_items_writes_of_mem ?_ hid hs
          rw [merge_items_eq_filter]
          refine List.mem_filter.mpr ⟨hit, ?_⟩
          simp [truthyId, hid, hs, hE]
      simp [truthyId, hid, hs, hmem]

/-! ## Claim C4 — lock acquisition -/

/-- C4: with less than the 30-minute TTL between two `acquire_lock` calls
and no release in between, at most one returns true; and acquisition
succeeds — writing `acquired_at = now`, `expires_at = now + 30min` — exactly
when no record exists or the record's expiry has passed (`expiresAt ≤ now`),
and fails otherwise leaving the record unchanged. -/
theorem c4_lock_mutual_exclusion :
    ∀ (lock : Option LockRec) (t₁ t₂ : Nat),
      (t₁ ≤ t₂ → t₂ < t₁ + lockTTL →
        ¬((acquire_lock lock t₁).1 = true ∧
          (acquire_lock (acquire_lock lock t₁).2 t₂).1 = true)) ∧
      ((acquire_lock lock t₁).1 = true ↔
        lock = none ∨ ∃ l, lock = some l ∧ l.expiresAt ≤ t₁) ∧
      ((acquire_lock lock t₁).1 = true →
        (acquire_lock lock t₁).2 = some ⟨t₁, t₁ + lockTTL⟩) := by
  intro lock t₁ t₂
  cases lock with
  | none =>
    refine ⟨?_, ?_, ?_⟩
    · rintro h₁ h₂ ⟨-, hb⟩
      simp only [acquire_lock, gt_iff_lt] at hb
      rw [if_pos (by omega : t₂ < t₁ + lockTTL)] at hb
      exact Bool.false_ne_true hb
    · simp [acquire_lock]
    · intro _; rfl
  | some l =>
    by_cases h : l.expiresAt > t₁
    · refine ⟨?_, ?_, ?_⟩
      · rintro _ _ ⟨ha, -⟩
        simp [acquire_lock, if_pos h] at ha
      · simp only [acquire_lock, if_pos h]
        constructor
        · intro hf; exact absurd hf Bool.false_ne_true
        · rintro (hnone | ⟨l', hl', hle⟩)
          · exact absurd hnone (by simp)
          · injection hl' with hinj
            subst hinj
            exact absurd hle (by omega)
      · intro ha; simp [acquire_lock, if_pos h] at ha
    · refine ⟨?_, ?_, ?_⟩
      · rintro h₁ h₂ ⟨-, hb⟩
        simp only [acquire_lock, if_neg h, gt_iff_lt] at hb
        rw [if_pos (by omega : t₂ < t₁ + lockTTL)] at hb
        exact Bool.false_ne_true hb
      · simp only [acquire_lock, if_neg h]
        refine ⟨fun _ => Or.inr ⟨l, rfl, by omega⟩, fun _ => trivial⟩
      · intro _; simp [acquire_lock, if_neg h]

/-- C4 witness: a free lock is acquired at `t = 0`; a second attempt at
`t = 100` (within the TTL, no release in between) does not also succeed. -/
theorem c4_witness :
    (0 : Nat) ≤ 100 ∧ 100 < 0 + lockTTL ∧
      ¬((acquire_lock none 0).1 = true ∧
        (acquire_lock (acquire_lock none 0).2 100).1 = true) :=
  ⟨by decide, by decide, (c4_lock_mutual_exclusion none 0 100).1 (by decide) (by decide)⟩

/-! ## Claim C2 — analyze_batch length discipline -/

/-- C2 counterexample: `analyze_batch` does NOT return one output per input.
There is no length check on the parsed result array (sentiment.py:65): when
the model's parsed array for a 1-item batch is empty on the first attempt,
`zip(batch, results)` truncates and the batch contributes 0 items — no
retry, no fallback. -/
theorem c2_counterexample :
    (analyze_batch [itemA] fun _ _ => Except.ok []).length ≠
      ([itemA] : List Item).length := by
  decide

/-- C2 (amended): analysis results are matched to input items positionally
by `zip` truncation with no length check: a successful batch contributes
`min(batch size, result array length)` items — a shorter array silently
drops the excess input items and triggers neither retry nor fallback, and a
longer array's excess results are ignored — while a batch whose model
call/parse fails all retry attempts falls back to defaults for every item
of the batch (sentiment neutral, category other, analyzed true),
contributing exactly one output per input.  In particular, output count
equals input count whenever every successful batch's array length equals
its batch size (this direction only: an over-long array also preserves the
count). -/
theorem c2_analyze_batch_lengths :
    ∀ (items : List Item) (oracle : Nat → Nat → Except Unit (List AResult)),
      (analyze_batch items oracle).length =
        ((chunksOf 10 items).enum.map fun p =>
          match analyze_items p.2 (oracle p.1) with
          | Except.ok rs => min p.2.length rs.length
          | Except.error _ => p.2.length).sum ∧
      (∀ (batch : List Item) (call : Nat → Except Unit (List AResult)) (e : Unit),
        analyze_items batch call = Except.error e →
        (analyzeOneBatch call batch).length = batch.length ∧
        ∀ it ∈ analyzeOneBatch call batch,
          it.sentiment = some "neutral" ∧ it.category = some "other" ∧
            it.analyzed = true) ∧
      (((chunksOf 10 items).enum.all fun p =>
          match analyze_items p.2 (oracle p.1) with
          | Except.ok rs => rs.length == p.2.length
          | Except.error _ => true) = true →
        (analyze_batch items oracle).length = items.length) := by
  intro items oracle
  have hfallback : ∀ (batch : List Item) (call : Nat → Except Unit (List AResult)) (e : Unit),
      analyze_items batch call = Except.error e →
      (analyzeOneBatch call batch).length = batch.length ∧
      ∀ it ∈ analyzeOneBatch call batch,
        it.sentiment = some "neutral" ∧ it.category = some "other" ∧
          it.analyzed = true := by
    intro batch call e he
    have hb : analyzeOneBatch call batch = batch.map applyFallback := by
      simp only [analyzeOneBatch, he]
    rw [hb]
    refine ⟨List.length_map .., fun it hit => ?_⟩
    rcases List.mem_map.mp hit with ⟨x, -, hx⟩
    subst hx
    exact ⟨rfl, rfl, rfl⟩
  have hlen : (analyze_batch items oracle).length =
      ((chunksOf 10 items).enum.map fun p =>
        match analyze_items p.2 (oracle p.1) with
        | Except.ok rs => min p.2.length rs.length
        | Except.error _ => p.2.length).sum := by
    simp only [analyze_batch, List.length_flatten, List.map_map]
    congr 1
    refine List.map_congr_left fun p _ => ?_
    simp only [Function.comp_apply, analyzeOneBatch]
    cases h : analyze_items p.2 (oracle p.1) with
    | ok rs => simp [List.length_zip]
    | error e => simp
  refine ⟨hlen, hfallback, fun hall => ?_⟩
  rw [hlen]
  rw [List.all_eq_true] at hall
  have hcong : ((chunksOf 10 items).enum.map fun p =>
      match analyze_items p.2 (oracle p.1) with
      | Except.ok rs => min p.2.length rs.length
      | Except.error _ => p.2.length) =
      (chunksOf 10 items).enum.map fun p => p.2.length := by
    refine List.map_congr_left fun p hp => ?_
    have hthis := hall p hp
    cases h : analyze_items p.2 (oracle p.1) with
    | ok rs =>
      rw [h] at hthis
      have hb : (rs.length == p.2.length) = true := hthis
      have heq : rs.length = p.2.length := eq_of_beq hb
      show min p.2.length rs.length = p.2.length
      omega
    | error e => rfl
  rw [hcong]
  have h2 : ((chunksOf 10 items).enum.map fun p => p.2.length) =
      (chunksOf 10 items).map List.length := by
    have := List.enum_map_snd (chunksOf 10 items)
    calc ((chunksOf 10 items).enum.map fun p => p.2.length)
        = ((chunksOf 10 items).enum.map Prod.snd).map List.length := by
          rw [List.map_map]; rfl
      _ = (chunksOf 10 items).map List.length := by rw [this]
  rw [h2, ← List.length_flatten, chunksOf_flatten 10 (by omega)]

/-- C2 amended witness: a 1-item batch whose model call fails every retry
attempt yields exactly one output item carrying the default sentiment,
category and analyzed flag, and the whole-run output count matches the
input count. -/
theorem c2_witness :
    analyze_items [itemA] (fun _ => Except.error ()) = Except.error () ∧
      ((analyzeOneBatch (fun _ => Except.error ()) [itemA]).length =
          ([itemA] : List Item).length ∧
        ∀ it ∈ analyzeOneBatch (fun _ => Except.error ()) [itemA],
          it.sentiment = some "neutral" ∧ it.category = some "other" ∧
            it.analyzed = true) ∧
      (((chunksOf 10 [itemA]).enum.all fun p =>
          match analyze_items p.2 ((fun _ _ => Except.error ()) p.1) with
          | Except.ok rs => rs.length == p.2.length
          | Except.error _ => true) = true) ∧
      (analyze_batch [itemA] fun _ _ => Except.error ()).length =
        ([itemA] : List Item).length :=
  ⟨by decide,
    (c2_analyze_batch_lengths [itemA] fun _ _ => Except.error ()).2.1
      [itemA] (fun _ => Except.error ()) () (by decide),
    by decide,
    (c2_analyze_batch_lengths [itemA] fun _ _ => Except.error ()).2.2 (by decide)⟩

/-! ## Orchestrator helper lemmas -/

theorem count_lockDelete_map_store (l : List WAct) :
    (l.map Act.store).count Act.lockDelete = 0 := by
  rw [List.count_eq_zero]
  intro h
  rcases List.mem_map.mp h with ⟨w, -, hw⟩
  exact Act.noConfusion hw

theorem syncStateWrite_not_mem_item_map (l : List String) :
    WAct.syncStateWrite ∉ l.map WAct.itemWrite := by
  intro h
  rcases List.mem_map.mp h with ⟨s, -, hs⟩
  exact WAct.noConfusion hs

theorem syncStateWrite_not_mem_group_map (l : List String) :
    WAct.syncStateWrite ∉ l.map WAct.groupWrite := by
  intro h
  rcases List.mem_map.mp h with ⟨s, -, hs⟩
  exact WAct.noConfusion hs

theorem twitterCrashes_set_lock (fs : FSState) (x : Option LockRec) (env : Env) :
    twitterCrashes { fs with lock := x } env = twitterCrashes fs env := rfl

theorem fetchedItems_set_lock (fs : FSState) (x : Option LockRec) (env : Env)
    (R : RemoteOracle) :
    fetchedItems { fs with lock := x } env R = fetchedItems fs env R := rfl

/-- Exhaustive shape analysis of the pipeline body: every run either raises
with the watermark untouched and no sync-state write in its trace, or takes
the no-new-items early return (state and trace untouched), or ends in the
success response. -/
theorem syncBody_shape (fs : FSState) (now : Nat) (env : Env) (F : StoreFaults)
    (R : RemoteOracle) :
    (∃ e, (syncBody fs now env F R).1 = Except.error e ∧
      (syncBody fs now env F R).2.1.syncState = fs.syncState ∧
      WAct.syncStateWrite ∉ (syncBody fs now env F R).2.2) ∨
    ((syncBody fs now env F R).1 = Except.ok noNewResp ∧
      (syncBody fs now env F R).2.1 = fs ∧ (syncBody fs now env F R).2.2 = []) ∨
    (∃ s g t, (syncBody fs now env F R).1 = Except.ok (successResp s g t)) := by
  simp only [syncBody]
  by_cases h1 : F.configFail = true
  · rw [if_pos h1]
    exact Or.inl ⟨PyErr.storeErr, rfl, rfl, by simp⟩
  rw [if_neg h1]
  by_cases h2 : F.lastSyncFail = true
  · rw [if_pos h2]
    exact Or.inl ⟨PyErr.storeErr, rfl, rfl, by simp⟩
  rw [if_neg h2]
  by_cases h3 : twitterCrashes fs env = true
  · rw [if_pos h3]
    exact Or.inl ⟨PyErr.typeError, rfl, rfl, by simp⟩
  rw [if_neg h3]
  by_cases h4 : F.existingItemsFail = true
  · rw [if_pos h4]
    exact Or.inl ⟨PyErr.storeErr, rfl, rfl, by simp⟩
  rw [if_neg h4]
  by_cases h5 : (merge_items (fs.feedback.map Prod.fst) (fetchedItems fs env R)).isEmpty
      = true
  · rw [if_pos h5]
    exact Or.inr (Or.inl ⟨rfl, rfl, rfl⟩)
  rw [if_neg h5]
  by_cases h6 : F.existingGroupsFail = true
  · rw [if_pos h6]
    exact Or.inl ⟨PyErr.storeErr, rfl, rfl, by simp⟩
  rw [if_neg h6]
  by_cases h7 : F.saveItemsFail = true
  · rw [if_pos h7]
    exact Or.inl ⟨PyErr.storeErr, rfl, rfl, by simp⟩
  rw [if_neg h7]
  by_cases h8 : F.saveGroupsFail = true
  · rw [if_pos h8]
    refine Or.inl ⟨PyErr.storeErr, rfl, rfl, ?_⟩
    rw [save_items_fs_trace]
    exact syncStateWrite_not_mem_item_map _
  rw [if_neg h8]
  by_cases h9 : F.updateTsFail = true
  · rw [if_pos h9]
    refine Or.inl ⟨PyErr.storeErr, rfl, rfl, ?_⟩
    intro hmem
    rcases List.mem_append.mp hmem with h | h
    · rw [save_items_fs_trace] at h
      exact syncStateWrite_not_mem_item_map _ h
    · rw [save_groups_fs_trace] at h
      exact syncStateWrite_not_mem_group_map _ h
  rw [if_neg h9]
  exact Or.inr (Or.inr ⟨_, _, _, rfl⟩)

/-! ## Claim C1 — twitter fetch aborts the run -/

/-- C1 failing run: with twitter enabled and its credential present (and
GitHub enabled with data available), the run does NOT log-and-continue.
main.py:92 calls `twitter.search(keywords, since=last_sync)` while
`TwitterService.search(self, keywords)` (twitter.py:18) accepts no `since`
keyword, so the call raises `TypeError`, which only the top-level handler
catches: the whole run aborts with HTTP 500, no remaining source or phase
executes, and the only store actions are the lock write and its release. -/
theorem c1_twitter_since_typeerror :
    sync_all fsTw 0 (some "Bearer t") envTw faults0 oracleG =
      (Except.error 500, { fsTw with lock := none },
        [Act.lockSet 0 (0 + lockTTL), Act.lockDelete]) := by
  decide

/-! ## Claim C5 — guaranteed release -/

/-- C5: on every run that passes authentication and acquires the lock —
whatever the store faults and remote outcomes, hence on the success path,
the no-new-items early return, and every raised exception — the lock-delete
(`release_lock`, main.py:38-41, invoked from the `finally`) appears exactly
once in the action trace, and the endpoint leaves no lock record held. -/
theorem c5_release_exactly_once :
    ∀ (fs : FSState) (now : Nat) (auth : Option String) (env : Env)
      (F : StoreFaults) (R : RemoteOracle),
      authOk auth = true →
      (acquire_lock fs.lock now).1 = true →
      (sync_all fs now auth env F R).2.2.count Act.lockDelete = 1 ∧
        (sync_all fs now auth env F R).2.1.lock = none := by
  intro fs now auth env F R hauth hacq
  simp only [sync_all, hauth, Bool.not_true, Bool.false_eq_true, if_false, hacq, if_true]
  rcases hres : (syncBody { fs with lock := (acquire_lock fs.lock now).2 } now env F R).1
    with resp | e <;>
    simp only [hres] <;>
    exact ⟨by simp [List.count_cons, List.count_append, count_lockDelete_map_store],
      by trivial⟩

/-- C5 witness: concrete fault-free run (which takes the no-new-items path):
the trace holds exactly one lock deletion and the final state holds no lock. -/
theorem c5_witness :
    authOk (some "Bearer t") = true ∧ (acquire_lock fs0.lock 0).1 = true ∧
      ((sync_all fs0 0 (some "Bearer t") env0 faults0 oracle0).2.2.count Act.lockDelete = 1 ∧
        (sync_all fs0 0 (some "Bearer t") env0 faults0 oracle0).2.1.lock = none) :=
  ⟨by decide, by decide,
    c5_release_exactly_once fs0 0 (some "Bearer t") env0 faults0 oracle0
      (by decide) (by decide)⟩

/-! ## Claim C6 — watermark only after successful saves -/

/-- C6: if any phase raises (the endpoint returns an error), the sync-state
watermark document is exactly what it was before the run; moreover a
sync-state write appears in a run's trace only when the run ends in the
success response — i.e. only after the item and group saves succeeded. -/
theorem c6_watermark_only_after_saves :
    ∀ (fs : FSState) (now : Nat) (auth : Option String) (env : Env)
      (F : StoreFaults) (R : RemoteOracle),
      (∀ code, (sync_all fs now auth env F R).1 = Except.error code →
        (sync_all fs now auth env F R).2.1.syncState = fs.syncState) ∧
      (Act.store WAct.syncStateWrite ∈ (sync_all fs now auth env F R).2.2 →
        ∃ s g t, (sync_all fs now auth env F R).1 = Except.ok (successResp s g t)) := by
  intro fs now auth env F R
  by_cases hauth : authOk auth = true
  · by_cases hacq : (acquire_lock fs.lock now).1 = true
    · simp only [sync_all, hauth, Bool.not_true, Bool.false_eq_true, if_false, hacq, if_true]
      rcases syncBody_shape { fs with lock := (acquire_lock fs.lock now).2 } now env F R with
        ⟨e, he, hst, hmem⟩ | ⟨hok, hstate, htrace⟩ | ⟨s, g, t, hok⟩
      · simp only [he]
        refine ⟨fun code _ => hst, fun hsw => absurd hsw ?_⟩
        intro hsw
        rcases List.mem_cons.mp hsw with h | h
        · exact Act.noConfusion h
        · rcases List.mem_append.mp h with h | h
          · rcases List.mem_map.mp h with ⟨w, hwmem, hw⟩
            cases hw
            exact hmem hwmem
          · rcases List.mem_singleton.mp h with h
            exact Act.noConfusion h
      · simp only [hok, htrace]
        refine ⟨fun code hcode => Except.noConfusion hcode, fun hsw => ?_⟩
        simp only [List.map_nil, List.nil_append] at hsw
        rcases List.mem_cons.mp hsw with h | h
        · exact absurd h (by simp)
        · exact absurd (List.mem_singleton.mp h) (by simp)
      · simp only [hok]
        exact ⟨fun code hcode => Except.noConfusion hcode, fun _ => ⟨s, g, t, rfl⟩⟩
    · simp only [sync_all, hauth, Bool.not_true, Bool.false_eq_true, if_false, hacq, if_false]
      exact ⟨fun code hcode => by trivial, fun hsw => absurd hsw (by simp)⟩
  · rw [Bool.not_eq_true] at hauth
    simp only [sync_all, hauth, Bool.not_false, if_true]
    exact ⟨fun code hcode => by trivial, fun hsw => absurd hsw (by simp)⟩

/-- C6 witness: a run whose `save_items` raises returns HTTP 500 and leaves
the previously stored watermark intact. -/
theorem c6_witness :
    (sync_all fsG 0 (some "Bearer t") envG faultsSaveFail oracleG).1 = Except.error 500 ∧
      (sync_all fsG 0 (some "Bearer t") envG faultsSaveFail oracleG).2.1.syncState =
        fsG.syncState :=
  ⟨by decide,
    (c6_watermark_only_after_saves fsG 0 (some "Bearer t") envG faultsSaveFail oracleG).1
      500 (by decide)⟩

/-! ## Claim C9 — success response shape -/

/-- C9 counterexample: a run that acquires the lock and hits no fatal error
can return a response without a `total_fetched` key: when the merge phase
yields no new items, main.py:127 returns `{synced, groups, message}` —
not the claimed `{synced, groups, total_fetched}` shape. -/
theorem c9_counterexample :
    (acquire_lock fs0.lock 0).1 = true ∧
      (sync_all fs0 0 (some "Bearer t") env0 faults0 oracle0).1 = Except.ok noNewResp ∧
      noNewResp.map Prod.fst = ["synced", "groups", "message"] := by
  decide

/-- C9 (amended): every run that acquires the lock and returns without a
fatal error returns either `{synced: int, groups: int, total_fetched: int}`
or — exactly in the no-new-items case — `{synced: 0, groups: 0, message}`. -/
theorem c9_success_response_shape :
    ∀ (fs : FSState) (now : Nat) (auth : Option String) (env : Env)
      (F : StoreFaults) (R : RemoteOracle) (resp : Resp),
      (acquire_lock fs.lock now).1 = true →
      (sync_all fs now auth env F R).1 = Except.ok resp →
      (∃ s g t, resp = successResp s g t) ∨ resp = noNewResp := by
  intro fs now auth env F R resp hacq hok
  by_cases hauth : authOk auth = true
  · simp only [sync_all, hauth, Bool.not_true, Bool.false_eq_true, if_false, hacq,
      if_true] at hok
    rcases syncBody_shape { fs with lock := (acquire_lock fs.lock now).2 } now env F R with
      ⟨e, he, -, -⟩ | ⟨hbody, -, -⟩ | ⟨s, g, t, hbody⟩
    · rw [he] at hok
      exact Except.noConfusion hok
    · rw [hbody] at hok
      exact Or.inr (Except.ok.inj hok).symm
    · rw [hbody] at hok
      exact Or.inl ⟨s, g, t, (Except.ok.inj hok).symm⟩
  · rw [Bool.not_eq_true] at hauth
    simp only [sync_all, hauth, Bool.not_false, if_true] at hok
    exact Except.noConfusion hok

/-- C9 amended witness: the concrete no-new-items run satisfies the amended
shape disjunction. -/
theorem c9_witness :
    (acquire_lock fs0.lock 0).1 = true ∧
      ((∃ s g t, noNewResp = successResp s g t) ∨ noNewResp = noNewResp) :=
  ⟨by decide,
    c9_success_response_shape fs0 0 (some "Bearer t") env0 faults0 oracle0 noNewResp
      (by decide) (by decide)⟩

/-! ## Claim C10 — no-new-items frame -/

/-- C10: when the merge/dedup phase yields zero new items (and the phases
before it ran without fault), the run returns the no-new-items response with
`synced = 0` immediately, and the only store actions of the whole run are
the lock write and the lock delete: no item documents, no group documents,
and no sync-state write — the watermark is not advanced even though the run
completes successfully. -/
theorem c10_no_new_items_frame :
    ∀ (fs : FSState) (now : Nat) (auth : Option String) (env : Env)
      (F : StoreFaults) (R : RemoteOracle),
      authOk auth = true →
      (acquire_lock fs.lock now).1 = true →
      F.configFail = false →
      F.lastSyncFail = false →
      twitterCrashes fs env = false →
      F.existingItemsFail = false →
      (merge_items (fs.feedback.map Prod.fst) (fetchedItems fs env R)).isEmpty = true →
      sync_all fs now auth env F R =
        (Except.ok noNewResp, { fs with lock := none },
          [Act.lockSet now (now + lockTTL), Act.lockDelete]) := by
  intro fs now auth env F R hauth hacq hcf hls htw hei hmerge
  have hbody : syncBody { fs with lock := (acquire_lock fs.lock now).2 } now env F R =
      (Except.ok noNewResp, { fs with lock := (acquire_lock fs.lock now).2 }, []) := by
    simp only [syncBody, hcf, hls, twitterCrashes_set_lock, htw, hei,
      fetchedItems_set_lock, Bool.false_eq_true, if_false]
    rw [if_pos]
    exact hmerge
  simp only [sync_all, hauth, Bool.not_true, Bool.false_eq_true, if_false, hacq, if_true,
    hbody]
  rfl

/-- C10 witness: the concrete empty-database run returns the no-new-items
response, leaves items/groups/sync-state untouched, and writes only the lock. -/
theorem c10_witness :
    authOk (some "Bearer t") = true ∧ (acquire_lock fs0.lock 0).1 = true ∧
      (merge_items (fs0.feedback.map Prod.fst) (fetchedItems fs0 env0 oracle0)).isEmpty
        = true ∧
      sync_all fs0 0 (some "Bearer t") env0 faults0 oracle0 =
        (Except.ok noNewResp, { fs0 with lock := none },
          [Act.lockSet 0 (0 + lockTTL), Act.lockDelete]) :=
  ⟨by decide, by decide, by decide,
    c10_no_new_items_frame fs0 0 (some "Bearer t") env0 faults0 oracle0
      (by decide) (by decide) (by decide) (by decide) (by decide) (by decide) (by decide)⟩

end Grumble
